import Mathlib

/-!
Shallow embedding of the Capybarish pub/sub core
(src/arduino/src/capybarish_pubsub.h) and verification of its
specification.

Modelling choices:
* Machine integers (`uint16_t`, `uint32_t`, `uint64_t`, `size_t`) are `Nat`
  with an explicit `% 2^w` where C++ arithmetic can wrap: the `uint32_t`
  polynomial hash, the `uint16_t` port result, the `uint32_t` counters and
  the `uint64_t` subtraction `now - lastFire`.
* The UDP transport is a queue (`List (List Nat)`) of pending datagrams,
  each a byte list, in arrival order.  `parsePacket` pops the next pending
  datagram and returns its length; a return of 0 (no datagram, or an empty
  datagram) is treated by the code as "nothing pending".
* The clock (`micros()`) is an explicit `now : Nat` argument, the value the
  `uint64_t` local variable receives.
* Transport results (`WiFiUDP::begin`, `endPacket`, multicast join) are
  explicit boolean arguments.
* `std::function` callbacks are modelled by their presence (`hasCallback`);
  results record whether the callback would have been invoked.
-/

/-- 2^16, the modulus of `uint16_t`. -/
def U16 : Nat := 65536

/-- 2^32, the modulus of `uint32_t`. -/
def U32 : Nat := 4294967296

/-- 2^64, the modulus of `uint64_t`. -/
def U64 : Nat := 18446744073709551616

/-- `TopicRegistry::MAX_TOPICS`. -/
def MAX_TOPICS : Nat := 32

/-- `cpy::MAX_PUBLISHERS`. -/
def MAX_PUBLISHERS : Nat := 8

/-- `cpy::MAX_SUBSCRIPTIONS`. -/
def MAX_SUBSCRIPTIONS : Nat := 8

/-- `cpy::MAX_TIMERS`. -/
def MAX_TIMERS : Nat := 8

/-- `uint64_t` subtraction `a - b` with wraparound. -/
def u64sub (a b : Nat) : Nat := (a % U64 + U64 - b % U64) % U64

/-- `cpy::TopicInfo`: one entry of the topic registry. -/
structure TopicInfo where
  name : String
  port : Nat
  msgSize : Nat
  isPublisher : Bool
deriving DecidableEq

/-- `cpy::TopicRegistry`: the bounded topic table, entries in
registration order. -/
structure TopicRegistry where
  topics : List TopicInfo
deriving DecidableEq

/-- The registry's linear scan `strcmp(_topics[i].name, name) == 0`. -/
def TopicRegistry.hasName (reg : TopicRegistry) (name : String) : Bool :=
  reg.topics.any (fun t => t.name == name)

/-- `TopicRegistry::registerTopic`: refuse at capacity, succeed without
mutation when the name is already present, otherwise append. -/
def TopicRegistry.registerTopic (reg : TopicRegistry) (name : String)
    (port msgSize : Nat) (isPublisher : Bool) : Bool × TopicRegistry :=
  if MAX_TOPICS ≤ reg.topics.length then (false, reg)
  else if reg.hasName name then (true, reg)
  else (true, ⟨reg.topics ++ [⟨name, port, msgSize, isPublisher⟩]⟩)

/-- The scan of `TopicRegistry::getPort`: first matching entry's port,
0 when the name is absent. -/
def findPort : List TopicInfo → String → Nat
  | [], _ => 0
  | t :: ts, name => if t.name == name then t.port else findPort ts name

/-- `TopicRegistry::getPort`. -/
def TopicRegistry.getPort (reg : TopicRegistry) (name : String) : Nat :=
  findPort reg.topics name

/-- The `uint32_t` polynomial hash loop of `TopicRegistry::autoPort`:
`hash = hash * 31 + *name++` over the bytes of the name. -/
def hashBytes (bytes : List Nat) : Nat :=
  bytes.foldl (fun h c => (h * 31 + c) % U32) 0

/-- `TopicRegistry::autoPort`: `basePort + (hash % 1000)` truncated to
`uint16_t`. -/
def TopicRegistry.autoPort (bytes : List Nat) (basePort : Nat) : Nat :=
  (basePort + hashBytes bytes % 1000) % U16

/-- The destination of a UDP send (`beginPacket` arguments). -/
inductive Dest where
  | unicast (ip : String) (port : Nat)
  | broadcastAll (port : Nat)
deriving DecidableEq

/-- `cpy::Publisher<T>` state. `broadcast` is the `_broadcast` flag. -/
structure Publisher where
  topicName : String
  remoteIP : String
  remotePort : Nat
  localPort : Nat
  broadcast : Bool
  pubCount : Nat
  lastPubTime : Nat
  initialized : Bool
deriving DecidableEq

/-- The `Publisher` constructor: fields initialised, topic registered
with `(name, remotePort, sizeof(T), true)`. -/
def Publisher.construct (reg : TopicRegistry) (topicName remoteIP : String)
    (remotePort localPort msgSize : Nat) (broadcast : Bool) :
    Publisher × TopicRegistry :=
  (⟨topicName, remoteIP, remotePort, localPort, broadcast, 0, 0, false⟩,
   (reg.registerTopic topicName remotePort msgSize true).2)

/-- `Publisher::init`: bind the local port only when non-zero (`bindOk` is
the transport's `begin` result). -/
def Publisher.init (p : Publisher) (bindOk : Bool) : Publisher :=
  if 0 < p.localPort then { p with initialized := bindOk }
  else { p with initialized := true }

/-- Result of a publish call: the returned boolean, the attempted send
(destination and bytes, `none` when no packet was started), and the
publisher's state after the call. -/
structure PublishResult where
  ok : Bool
  attempt : Option (Dest × List Nat)
  pub : Publisher
deriving DecidableEq

/-- `Publisher::publish`: fail before init; send the encoded message to the
broadcast or unicast destination; on transport success (`sendOk`, the
`endPacket` result) bump `_pubCount` and stamp `_lastPubTime`. -/
def Publisher.publish (p : Publisher) (msg : List Nat) (sendOk : Bool)
    (now : Nat) : PublishResult :=
  if p.initialized = false then ⟨false, none, p⟩
  else
    let dest := if p.broadcast then Dest.broadcastAll p.remotePort
                else Dest.unicast p.remoteIP p.remotePort
    if sendOk then
      ⟨true, some (dest, msg),
       { p with pubCount := (p.pubCount + 1) % U32, lastPubTime := now }⟩
    else ⟨false, some (dest, msg), p⟩

/-- `Publisher::publishRaw`: fail before init; always send to the unicast
remote address; no counter or timestamp update. -/
def Publisher.publishRaw (p : Publisher) (data : List Nat) (sendOk : Bool) :
    PublishResult :=
  if p.initialized = false then ⟨false, none, p⟩
  else ⟨sendOk, some (Dest.unicast p.remoteIP p.remotePort, data), p⟩

/-- `cpy::Subscription<T>` state.  `queue` is the transport's pending
datagrams for the bound port; `msgSize` is `sizeof(T)`; `depth` is
`_qos.depth`. -/
structure Subscription where
  topicName : String
  localPort : Nat
  queue : List (List Nat)
  hasCallback : Bool
  depth : Nat
  msgSize : Nat
  recvCount : Nat
  dropCount : Nat
  lastRecvTime : Nat
  initialized : Bool
deriving DecidableEq

/-- The `Subscription` constructor: fields initialised, topic registered
with `(name, localPort, sizeof(T), false)`. -/
def Subscription.construct (reg : TopicRegistry) (topicName : String)
    (hasCallback : Bool) (localPort msgSize depth : Nat) :
    Subscription × TopicRegistry :=
  (⟨topicName, localPort, [], hasCallback, depth, msgSize, 0, 0, 0, false⟩,
   (reg.registerTopic topicName localPort msgSize false).2)

/-- `Subscription::init`: `_initialized = _udp.begin(_localPort)`. -/
def Subscription.init (s : Subscription) (bindOk : Bool) : Subscription :=
  { s with initialized := bindOk }

/-- Result of `take`: the returned boolean, the decoded message written to
the output parameter (`none` when the output parameter is untouched), and
the subscription's state after the call. -/
structure TakeResult where
  ok : Bool
  msg : Option (List Nat)
  sub : Subscription
deriving DecidableEq

/-- `Subscription::take`: fail before init or with nothing pending; pop the
next datagram; a datagram shorter than `sizeof(T)` is flushed and counted
in `_dropCount`; otherwise the first `sizeof(T)` bytes are decoded into the
output parameter, `_recvCount` bumps and `_lastRecvTime` is stamped.
An empty pending datagram makes `parsePacket` return 0, which the code
cannot tell from "nothing pending". -/
def Subscription.take (s : Subscription) (now : Nat) : TakeResult :=
  if s.initialized = false then ⟨false, none, s⟩
  else
    match s.queue with
    | [] => ⟨false, none, s⟩
    | d :: rest =>
      if d.length = 0 then ⟨false, none, { s with queue := rest }⟩
      else if d.length < s.msgSize then
        ⟨false, none,
         { s with queue := rest, dropCount := (s.dropCount + 1) % U32 }⟩
      else
        ⟨true, some (d.take s.msgSize),
         { s with queue := rest, recvCount := (s.recvCount + 1) % U32,
                  lastRecvTime := now }⟩

/-- Result of `spinOnce`: the returned boolean, whether the callback was
invoked, and the subscription's state after the call. -/
structure SpinResult where
  processed : Bool
  invoked : Bool
  sub : Subscription
deriving DecidableEq

/-- `Subscription::spinOnce`: identical drain to `take`, but the decoded
message goes to the callback when one is configured (`if (_callback)`),
and the call reports whether a message was processed. -/
def Subscription.spinOnce (s : Subscription) (now : Nat) : SpinResult :=
  if s.initialized = false then ⟨false, false, s⟩
  else
    match s.queue with
    | [] => ⟨false, false, s⟩
    | d :: rest =>
      if d.length = 0 then ⟨false, false, { s with queue := rest }⟩
      else if d.length < s.msgSize then
        ⟨false, false,
         { s with queue := rest, dropCount := (s.dropCount + 1) % U32 }⟩
      else
        ⟨true, s.hasCallback,
         { s with queue := rest, recvCount := (s.recvCount + 1) % U32,
                  lastRecvTime := now }⟩

/-- A processed `spinOnce` consumed the pending datagram at the head of
the queue. -/
theorem Subscription.spinOnce_queue_lt (s : Subscription) (now : Nat)
    (h : (s.spinOnce now).processed = true) :
    (s.spinOnce now).sub.queue.length < s.queue.length := by
  unfold Subscription.spinOnce at *
  by_cases hi : s.initialized = false
  · simp [hi] at h
  · cases hq : s.queue with
    | nil => simp [hi, hq] at h
    | cons d rest =>
      simp only [hi, hq, if_false, Bool.false_eq_true] at h ⊢
      by_cases h0 : d.length = 0
      · simp [h0] at h
      · by_cases hs : d.length < s.msgSize
        · simp [h0, hs] at h
        · simp [h0, hs]

/-- The loop of `Subscription::spinAll`: repeat `spinOnce`, counting, and
stop when it reports no message or the count reaches `_qos.depth`.  Side
effects of a failing final `spinOnce` (a flushed short datagram) are kept,
as they are on the C++ object. -/
def Subscription.spinAllAux (s : Subscription) (now count : Nat) :
    Nat × Subscription :=
  if h : (s.spinOnce now).processed = true then
    if s.depth ≤ count + 1 then (count + 1, (s.spinOnce now).sub)
    else Subscription.spinAllAux (s.spinOnce now).sub now (count + 1)
  else (count, (s.spinOnce now).sub)
termination_by s.queue.length
decreasing_by
  exact Subscription.spinOnce_queue_lt s now h

/-- `Subscription::spinAll`. -/
def Subscription.spinAll (s : Subscription) (now : Nat) : Nat × Subscription :=
  s.spinAllAux now 0

/-- `cpy::Timer` state. -/
structure Timer where
  periodUs : Nat
  hasCallback : Bool
  lastFire : Nat
  callCount : Nat
  active : Bool
deriving DecidableEq

/-- The `Timer` constructor: `_lastFire(0), _callCount(0), _active(true)`.
`periodUs` is the `uint64_t` value `static_cast<uint64_t>(periodSec * 1e6)`
computed at the call site. -/
def Timer.new (periodUs : Nat) (hasCallback : Bool) : Timer :=
  ⟨periodUs, hasCallback, 0, 0, true⟩

/-- Result of `Timer::spinOnce`: the returned boolean, whether the callback
was invoked, and the timer's state after the call. -/
structure TimerSpin where
  fired : Bool
  invoked : Bool
  timer : Timer
deriving DecidableEq

/-- `Timer::spinOnce`: inactive timers never fire; otherwise fire exactly
when `now - _lastFire >= _periodUs` in `uint64_t` arithmetic, stamping
`_lastFire = now` and bumping `_callCount`. -/
def Timer.spinOnce (t : Timer) (now : Nat) : TimerSpin :=
  if t.active = false then ⟨false, false, t⟩
  else if t.periodUs ≤ u64sub now t.lastFire then
    ⟨true, t.hasCallback,
     { t with lastFire := now, callCount := (t.callCount + 1) % U32 }⟩
  else ⟨false, false, t⟩

/-- `Timer::reset`: `_lastFire = micros()`. -/
def Timer.reset (t : Timer) (now : Nat) : Timer := { t with lastFire := now }

/-- `Timer::cancel`: `_active = false`. -/
def Timer.cancel (t : Timer) : Timer := { t with active := false }

/-- `Timer::resume`: `_active = true` then `reset()`. -/
def Timer.resume (t : Timer) (now : Nat) : Timer :=
  { t with active := true, lastFire := now }

/-- `cpy::Node` state: the owned publishers, subscriptions and timers, in
creation order. -/
structure NodeState where
  pubs : List Publisher
  subs : List Subscription
  timers : List Timer
deriving DecidableEq

/-- `Node::createPublisher`: refuse when full, otherwise construct a
unicast publisher with local port 0, `init()` it and store it. -/
def NodeState.createPublisher (n : NodeState) (reg : TopicRegistry)
    (topic remoteIP : String) (remotePort msgSize : Nat) :
    Option Publisher × NodeState × TopicRegistry :=
  if MAX_PUBLISHERS ≤ n.pubs.length then (none, n, reg)
  else
    let c := Publisher.construct reg topic remoteIP remotePort 0 msgSize false
    let pub := c.1.init true
    (some pub, { n with pubs := n.pubs ++ [pub] }, c.2)

/-- `Node::createBroadcastPublisher`: as `createPublisher` with the
all-ones address and the broadcast flag set. -/
def NodeState.createBroadcastPublisher (n : NodeState) (reg : TopicRegistry)
    (topic : String) (remotePort msgSize : Nat) :
    Option Publisher × NodeState × TopicRegistry :=
  if MAX_PUBLISHERS ≤ n.pubs.length then (none, n, reg)
  else
    let c := Publisher.construct reg topic "255.255.255.255" remotePort 0
      msgSize true
    let pub := c.1.init true
    (some pub, { n with pubs := n.pubs ++ [pub] }, c.2)

/-- `Node::createMulticastPublisher`: as `createPublisher` with the group
address as destination and the broadcast flag clear. -/
def NodeState.createMulticastPublisher (n : NodeState) (reg : TopicRegistry)
    (topic : String) (remotePort msgSize : Nat) (multicastIP : String) :
    Option Publisher × NodeState × TopicRegistry :=
  if MAX_PUBLISHERS ≤ n.pubs.length then (none, n, reg)
  else
    let c := Publisher.construct reg topic multicastIP remotePort 0 msgSize
      false
    let pub := c.1.init true
    (some pub, { n with pubs := n.pubs ++ [pub] }, c.2)

/-- `Node::createSubscription` (both the callback and the polling
overload, the latter passing no callback): refuse when full, otherwise
construct, `init()` (result `bindOk`) and store regardless of bind
success. -/
def NodeState.createSubscription (n : NodeState) (reg : TopicRegistry)
    (topic : String) (hasCallback : Bool) (localPort msgSize depth : Nat)
    (bindOk : Bool) : Option Subscription × NodeState × TopicRegistry :=
  if MAX_SUBSCRIPTIONS ≤ n.subs.length then (none, n, reg)
  else
    let c := Subscription.construct reg topic hasCallback localPort msgSize
      depth
    let sub := c.1.init bindOk
    (some sub, { n with subs := n.subs ++ [sub] }, c.2)

/-- `Node::createMulticastSubscription`: refuse when full; otherwise
construct and `initMulticast` (result `joinOk`); keep the object only on
join success, else discard it (the registry entry from construction
remains). -/
def NodeState.createMulticastSubscription (n : NodeState)
    (reg : TopicRegistry) (topic : String) (hasCallback : Bool)
    (localPort msgSize depth : Nat) (multicastIP : String) (joinOk : Bool) :
    Option Subscription × NodeState × TopicRegistry :=
  if MAX_SUBSCRIPTIONS ≤ n.subs.length then (none, n, reg)
  else
    let c := Subscription.construct reg topic hasCallback localPort msgSize
      depth
    let sub := c.1.init joinOk
    if joinOk then (some sub, { n with subs := n.subs ++ [sub] }, c.2)
    else (none, n, c.2)

/-- `Node::createTimer`: refuse when full, otherwise construct and store. -/
def NodeState.createTimer (n : NodeState) (periodUs : Nat)
    (hasCallback : Bool) : Option Timer × NodeState :=
  if MAX_TIMERS ≤ n.timers.length then (none, n)
  else
    let t := Timer.new periodUs hasCallback
    (some t, { n with timers := n.timers ++ [t] })

/-- All three collection counts are within their capacities. -/
def NodeState.withinCaps (n : NodeState) : Prop :=
  n.pubs.length ≤ MAX_PUBLISHERS ∧ n.subs.length ≤ MAX_SUBSCRIPTIONS ∧
  n.timers.length ≤ MAX_TIMERS

/-- On a monotone `uint64_t` clock reading, wrapping subtraction is plain
subtraction. -/
theorem u64sub_eq_sub (a b : Nat) (hb : b ≤ a) (ha : a < U64) :
    u64sub a b = a - b := by
  unfold u64sub U64 at *
  omega

/-- Scanning an extended table for a name absent from the prefix reads the
appended entry. -/
theorem findPort_append_not_found (l : List TopicInfo) (e : TopicInfo)
    (name : String) (h : l.any (fun t => t.name == name) = false) :
    findPort (l ++ [e]) name = if e.name == name then e.port else 0 := by
  induction l with
  | nil => simp [findPort]
  | cons t ts ih =>
    simp only [List.any_cons, Bool.or_eq_false_iff] at h
    simp only [List.cons_append, findPort, h.1, if_false, Bool.false_eq_true]
    exact ih h.2

/-- C4 (corrected): `autoPort(name, 7000)` equals
`7000 + (polynomial_hash(name) mod 1000)` with the base-31 hash over the
name's bytes in 32-bit unsigned arithmetic, and every returned port lies in
the inclusive range 7000..7999, that is in the half-open range
[7000, 8000) — not [7000, 7999) as claimed. -/
theorem autoPort_spec_C4 (bytes : List Nat) :
    TopicRegistry.autoPort bytes 7000 = 7000 + hashBytes bytes % 1000 ∧
    7000 ≤ TopicRegistry.autoPort bytes 7000 ∧
    TopicRegistry.autoPort bytes 7000 < 8000 := by
  have h : hashBytes bytes % 1000 < 1000 := Nat.mod_lt _ (by omega)
  unfold TopicRegistry.autoPort U16
  omega

/-- C4 witness: the amended statement at the one-byte name "a". -/
theorem autoPort_spec_C4_witness :
    TopicRegistry.autoPort [97] 7000 = 7000 + hashBytes [97] % 1000 ∧
    7000 ≤ TopicRegistry.autoPort [97] 7000 ∧
    TopicRegistry.autoPort [97] 7000 < 8000 :=
  autoPort_spec_C4 [97]

/-- C4 counterexample: the two-byte name "=l" (bytes 61, 108) hashes to
1999, so `autoPort` returns 7999, outside the claimed half-open range
[7000, 7999). -/
theorem autoPort_cex_C4 :
    TopicRegistry.autoPort [61, 108] 7000 = 7999 ∧
    ¬ TopicRegistry.autoPort [61, 108] 7000 < 7999 := by decide

/-- C8: `publish` before a successful `init` returns false and changes
nothing.  After init, a publish whose transport send succeeds returns true,
bumps `_pubCount` by one (modulo 2^32, exactly one below the wrap) and
stamps `_lastPubTime = now`; a publish whose send fails returns false and
leaves the publisher's state, counter and timestamp included, unchanged. -/
theorem publish_spec_C8 (p : Publisher) (msg : List Nat) (sendOk : Bool)
    (now : Nat) :
    (p.initialized = false → p.publish msg sendOk now = ⟨false, none, p⟩) ∧
    (p.initialized = true → sendOk = true →
      p.publish msg sendOk now =
        ⟨true,
         some (if p.broadcast then Dest.broadcastAll p.remotePort
               else Dest.unicast p.remoteIP p.remotePort, msg),
         { p with pubCount := (p.pubCount + 1) % U32,
                  lastPubTime := now }⟩) ∧
    (p.initialized = true → sendOk = true → p.pubCount + 1 < U32 →
      (p.publish msg sendOk now).pub.pubCount = p.pubCount + 1) ∧
    (p.initialized = true → sendOk = false →
      p.publish msg sendOk now =
        ⟨false,
         some (if p.broadcast then Dest.broadcastAll p.remotePort
               else Dest.unicast p.remoteIP p.remotePort, msg),
         p⟩) := by
  refine ⟨fun hi => ?_, fun hi hs => ?_, fun hi hs hlt => ?_, fun hi hs => ?_⟩
  · simp [Publisher.publish, hi]
  · simp [Publisher.publish, hi, hs]
  · simp [Publisher.publish, hi, hs, Nat.mod_eq_of_lt hlt]
  · simp [Publisher.publish, hi, hs]

/-- C8 witness: the three reachable branches at concrete publishers. -/
theorem publish_spec_C8_witness :
    Publisher.publish ⟨"t", "10.0.0.2", 6666, 0, false, 3, 9, false⟩ [1, 2]
        true 50 = ⟨false, none, ⟨"t", "10.0.0.2", 6666, 0, false, 3, 9, false⟩⟩ ∧
    Publisher.publish ⟨"t", "10.0.0.2", 6666, 0, false, 3, 9, true⟩ [1, 2]
        true 50 =
      ⟨true, some (Dest.unicast "10.0.0.2" 6666, [1, 2]),
       ⟨"t", "10.0.0.2", 6666, 0, false, (3 + 1) % U32, 50, true⟩⟩ ∧
    Publisher.publish ⟨"t", "10.0.0.2", 6666, 0, false, 3, 9, true⟩ [1, 2]
        false 50 =
      ⟨false, some (Dest.unicast "10.0.0.2" 6666, [1, 2]),
       ⟨"t", "10.0.0.2", 6666, 0, false, 3, 9, true⟩⟩ := by
  refine ⟨(publish_spec_C8 _ _ _ _).1 rfl, ?_, ?_⟩
  · exact (publish_spec_C8 ⟨"t", "10.0.0.2", 6666, 0, false, 3, 9, true⟩
      [1, 2] true 50).2.1 rfl rfl
  · exact (publish_spec_C8 ⟨"t", "10.0.0.2", 6666, 0, false, 3, 9, true⟩
      [1, 2] false 50).2.2.2 rfl rfl

/-- C9: `publishRaw` fails before init, and after init always sends to the
configured unicast remote address and port — even on a publisher
constructed with the broadcast flag set — returning the transport's
result while never touching `_pubCount` or `_lastPubTime`. -/
theorem publishRaw_spec_C9 (p : Publisher) (data : List Nat)
    (sendOk : Bool) :
    (p.initialized = false → p.publishRaw data sendOk = ⟨false, none, p⟩) ∧
    (p.initialized = true →
      p.publishRaw data sendOk =
        ⟨sendOk, some (Dest.unicast p.remoteIP p.remotePort, data), p⟩) := by
  refine ⟨fun hi => ?_, fun hi => ?_⟩
  · simp [Publisher.publishRaw, hi]
  · simp [Publisher.publishRaw, hi]

/-- C9 witness: a broadcast-mode publisher's `publishRaw` still sends to
the stored unicast address, with no counter change. -/
theorem publishRaw_spec_C9_witness :
    Publisher.publishRaw ⟨"t", "10.0.0.2", 6666, 0, true, 3, 9, true⟩
        [7] true =
      ⟨true, some (Dest.unicast "10.0.0.2" 6666, [7]),
       ⟨"t", "10.0.0.2", 6666, 0, true, 3, 9, true⟩⟩ ∧
    Publisher.publishRaw ⟨"t", "10.0.0.2", 6666, 0, true, 3, 9, false⟩
        [7] true =
      ⟨false, none, ⟨"t", "10.0.0.2", 6666, 0, true, 3, 9, false⟩⟩ :=
  ⟨(publishRaw_spec_C9 ⟨"t", "10.0.0.2", 6666, 0, true, 3, 9, true⟩
      [7] true).2 rfl,
   (publishRaw_spec_C9 ⟨"t", "10.0.0.2", 6666, 0, true, 3, 9, false⟩
      [7] true).1 rfl⟩

/-- C5: on a monotone clock reading (`lastFire ≤ now`, both `uint64_t`
values), `Timer::spinOnce` returns false with no state change when the
timer is inactive or the elapsed time is below the period; when active
with elapsed ≥ period it stamps `_lastFire = now` (not
`lastFire + period`), bumps `_callCount` by exactly one (below the 2^32
wrap), invokes the callback when one is configured, and returns true.
Two calls less than one period apart fire at most once, and one call
fires at most once however many periods were missed. -/
theorem timer_spinOnce_spec_C5 (t : Timer) (now now2 : Nat)
    (hlf : t.lastFire ≤ now) (hn : now < U64) (h12 : now ≤ now2)
    (hn2 : now2 < U64) :
    (t.active = false → t.spinOnce now = ⟨false, false, t⟩) ∧
    (t.active = true → now - t.lastFire < t.periodUs →
      t.spinOnce now = ⟨false, false, t⟩) ∧
    (t.active = true → t.periodUs ≤ now - t.lastFire →
      t.spinOnce now =
        ⟨true, t.hasCallback,
         { t with lastFire := now,
                  callCount := (t.callCount + 1) % U32 }⟩) ∧
    (t.active = true → t.periodUs ≤ now - t.lastFire →
      t.callCount + 1 < U32 →
      (t.spinOnce now).timer.callCount = t.callCount + 1) ∧
    (now2 - now < t.periodUs →
      ¬((t.spinOnce now).fired = true ∧
        ((t.spinOnce now).timer.spinOnce now2).fired = true)) := by
  have hu : u64sub now t.lastFire = now - t.lastFire :=
    u64sub_eq_sub now t.lastFire hlf hn
  refine ⟨fun ha => ?_, fun ha hp => ?_, fun ha hp => ?_, fun ha hp hc => ?_,
    fun hlt hboth => ?_⟩
  · simp [Timer.spinOnce, ha]
  · simp [Timer.spinOnce, ha, hu, Nat.not_le.mpr hp]
  · simp [Timer.spinOnce, ha, hu, hp]
  · simp [Timer.spinOnce, ha, hu, hp, Nat.mod_eq_of_lt hc]
  · obtain ⟨hf1, hf2⟩ := hboth
    by_cases ha : t.active = false
    · simp [Timer.spinOnce, ha] at hf1
    · have ha' : t.active = true := by
        cases h : t.active
        · exact absurd h ha
        · rfl
      by_cases hp : t.periodUs ≤ now - t.lastFire
      · have h1 : t.spinOnce now =
            ⟨true, t.hasCallback,
             { t with lastFire := now,
                      callCount := (t.callCount + 1) % U32 }⟩ := by
          simp [Timer.spinOnce, ha', hu, hp]
        rw [h1] at hf2
        have hu2 : u64sub now2 now = now2 - now :=
          u64sub_eq_sub now2 now h12 hn2
        simp [Timer.spinOnce, ha', hu2, Nat.not_le.mpr hlt] at hf2
      · simp [Timer.spinOnce, ha', hu, hp] at hf1

/-- C5 witness: a live timer with period 10 fires at time 12, and a second
call at time 15 (less than one period later) does not fire again. -/
theorem timer_spinOnce_spec_C5_witness :
    Timer.spinOnce ⟨10, true, 0, 0, true⟩ 12 =
      ⟨true, true, ⟨10, true, 12, (0 + 1) % U32, true⟩⟩ ∧
    ¬((Timer.spinOnce ⟨10, true, 0, 0, true⟩ 12).fired = true ∧
      ((Timer.spinOnce ⟨10, true, 0, 0, true⟩ 12).timer.spinOnce 15).fired
        = true) := by
  obtain ⟨-, -, h3, -, h5⟩ :=
    timer_spinOnce_spec_C5 ⟨10, true, 0, 0, true⟩ 12 15 (by decide)
      (by decide) (by decide) (by decide)
  exact ⟨h3 rfl (by decide), h5 (by decide)⟩

/-- C10: the `Timer` constructor initialises `_lastFire` to 0, not to the
construction time, so a fresh timer's first `spinOnce` fires exactly when
the clock reading has reached one period; `reset` and `resume` are the
operations that set the reference timestamp to the current time, and
`cancel` leaves it untouched. -/
theorem timer_ctor_spec_C10 (periodUs now now2 : Nat) (hasCb : Bool)
    (t : Timer) (hn : now < U64) :
    (Timer.new periodUs hasCb).lastFire = 0 ∧
    (Timer.new periodUs hasCb).active = true ∧
    (periodUs ≤ now →
      ((Timer.new periodUs hasCb).spinOnce now).fired = true) ∧
    (now < periodUs →
      ((Timer.new periodUs hasCb).spinOnce now).fired = false) ∧
    t.reset now2 = { t with lastFire := now2 } ∧
    t.resume now2 = { t with active := true, lastFire := now2 } ∧
    t.cancel = { t with active := false } ∧
    t.cancel.lastFire = t.lastFire := by
  have hu : u64sub now 0 = now := by
    have := u64sub_eq_sub now 0 (Nat.zero_le now) hn
    simpa using this
  refine ⟨rfl, rfl, fun hp => ?_, fun hp => ?_, rfl, rfl, rfl, rfl⟩
  · simp [Timer.spinOnce, Timer.new, hu, hp]
  · simp [Timer.spinOnce, Timer.new, hu, Nat.not_le.mpr hp]

/-- C10 witness: a timer with period 10 built at any time fires on its
first poll at clock reading 25 ≥ 10, and `cancel` on a concrete timer
keeps its reference timestamp. -/
theorem timer_ctor_spec_C10_witness :
    (Timer.new 10 true).lastFire = 0 ∧
    ((Timer.new 10 true).spinOnce 25).fired = true ∧
    (Timer.cancel ⟨5, true, 7, 2, true⟩).lastFire = 7 ∧
    Timer.resume ⟨5, true, 7, 2, false⟩ 40 = ⟨5, true, 40, 2, true⟩ := by
  obtain ⟨h1, -, h3, -, -, h6, -, h8⟩ :=
    timer_ctor_spec_C10 10 25 40 true ⟨5, true, 7, 2, false⟩ (by decide)
  refine ⟨h1, h3 (by decide), ?_, h6⟩
  obtain ⟨-, -, -, -, -, -, -, h8'⟩ :=
    timer_ctor_spec_C10 10 25 40 true ⟨5, true, 7, 2, true⟩ (by decide)
  exact h8'

/-- C1 (corrected): on an initialized subscription with a non-empty
datagram pending, `take` discards the datagram, bumps `_dropCount` by
exactly one (stated modulo 2^32 and exactly below the wrap), returns false
and leaves the output parameter untouched only when the datagram is
SHORTER than `sizeof(T)`; a datagram of length ≥ `sizeof(T)` — equal or
larger — is accepted: its first `sizeof(T)` bytes are decoded into the
output parameter, `_recvCount` bumps, the receive timestamp updates and
the call returns true. -/
theorem take_spec_C1 (s : Subscription) (now : Nat) (d : List Nat)
    (rest : List (List Nat)) (hinit : s.initialized = true)
    (hq : s.queue = d :: rest) (hne : d.length ≠ 0) :
    (d.length < s.msgSize →
      s.take now =
        ⟨false, none,
         { s with queue := rest,
                  dropCount := (s.dropCount + 1) % U32 }⟩) ∧
    (d.length < s.msgSize → s.dropCount + 1 < U32 →
      (s.take now).sub.dropCount = s.dropCount + 1) ∧
    (s.msgSize ≤ d.length →
      s.take now =
        ⟨true, some (d.take s.msgSize),
         { s with queue := rest,
                  recvCount := (s.recvCount + 1) % U32,
                  lastRecvTime := now }⟩) := by
  refine ⟨fun hlt => ?_, fun hlt hc => ?_, fun hge => ?_⟩
  · simp [Subscription.take, hinit, hq, hne, hlt]
  · simp [Subscription.take, hinit, hq, hne, hlt, Nat.mod_eq_of_lt hc]
  · simp [Subscription.take, hinit, hq, hne, Nat.not_lt.mpr hge]

/-- C1 witness: with `sizeof(T) = 2`, a pending 1-byte datagram is dropped
(counted, false, output untouched) and a pending 2-byte datagram is
accepted. -/
theorem take_spec_C1_witness :
    Subscription.take ⟨"t", 1, [[9], [1, 2]], false, 10, 2, 0, 0, 0, true⟩ 7 =
      ⟨false, none, ⟨"t", 1, [[1, 2]], false, 10, 2, 0, (0 + 1) % U32, 0,
        true⟩⟩ ∧
    Subscription.take ⟨"t", 1, [[1, 2]], false, 10, 2, 0, 0, 0, true⟩ 7 =
      ⟨true, some [1, 2], ⟨"t", 1, [], false, 10, 2, (0 + 1) % U32, 0, 7,
        true⟩⟩ := by
  refine ⟨(take_spec_C1 ⟨"t", 1, [[9], [1, 2]], false, 10, 2, 0, 0, 0, true⟩
    7 [9] [[1, 2]] rfl rfl (by decide)).1 (by decide), ?_⟩
  have h := (take_spec_C1 ⟨"t", 1, [[1, 2]], false, 10, 2, 0, 0, 0, true⟩
    7 [1, 2] [] rfl rfl (by decide)).2.2 (by decide)
  simpa using h

/-- C1 counterexample: with `sizeof(T) = 2`, a pending 3-byte datagram —
whose length does not equal `sizeof(T)` — is NOT discarded: `take`
returns true, decodes the first two bytes into the output parameter,
and leaves `_dropCount` unchanged, contradicting the claimed
exact-length check. -/
theorem take_cex_C1 :
    (Subscription.take ⟨"t", 1, [[1, 2, 3]], false, 10, 2, 0, 0, 0, true⟩
        5).ok = true ∧
    (Subscription.take ⟨"t", 1, [[1, 2, 3]], false, 10, 2, 0, 0, 0, true⟩
        5).msg = some [1, 2] ∧
    (Subscription.take ⟨"t", 1, [[1, 2, 3]], false, 10, 2, 0, 0, 0, true⟩
        5).sub.dropCount = 0 := by decide

/-- C3 (corrected): `spinOnce` on an initialized subscription constructed
without a callback is NOT a no-op when a valid-size datagram is pending:
it consumes the datagram, bumps `_recvCount`, stamps the receive
timestamp and returns true; only the callback invocation is skipped. -/
theorem spinOnce_nocb_spec_C3 (s : Subscription) (now : Nat) (d : List Nat)
    (rest : List (List Nat)) (hinit : s.initialized = true)
    (hcb : s.hasCallback = false) (hq : s.queue = d :: rest)
    (hne : d.length ≠ 0) (hv : s.msgSize ≤ d.length) :
    s.spinOnce now =
      ⟨true, false,
       { s with queue := rest,
                recvCount := (s.recvCount + 1) % U32,
                lastRecvTime := now }⟩ := by
  simp [Subscription.spinOnce, hinit, hcb, hq, hne, Nat.not_lt.mpr hv]

/-- C3 witness: a callback-less subscription with one valid 2-byte
datagram pending processes it and returns true. -/
theorem spinOnce_nocb_spec_C3_witness :
    Subscription.spinOnce ⟨"u", 2, [[3, 4], [5]], false, 10, 2, 1, 0, 0,
        true⟩ 9 =
      ⟨true, false, ⟨"u", 2, [[5]], false, 10, 2, (1 + 1) % U32, 0, 9,
        true⟩⟩ :=
  spinOnce_nocb_spec_C3 ⟨"u", 2, [[3, 4], [5]], false, 10, 2, 1, 0, 0, true⟩
    9 [3, 4] [[5]] rfl rfl rfl (by decide) (by decide)

/-- C3 counterexample: a subscription without a callback and with a
valid-size datagram pending: `spinOnce` returns true, consumes the
datagram and bumps `_recvCount`, contradicting the claimed no-op that
returns false. -/
theorem spinOnce_cex_C3 :
    (Subscription.spinOnce ⟨"t", 1, [[1, 2]], false, 10, 2, 0, 0, 0, true⟩
        5).processed = true ∧
    (Subscription.spinOnce ⟨"t", 1, [[1, 2]], false, 10, 2, 0, 0, 0, true⟩
        5).sub.queue = [] ∧
    (Subscription.spinOnce ⟨"t", 1, [[1, 2]], false, 10, 2, 0, 0, 0, true⟩
        5).sub.recvCount = 1 := by decide

/-- C2 (corrected): `registerTopic` refuses — returning false with no
mutation — whenever the table is at capacity, EVEN when the name is
already present (the capacity test precedes the presence scan); below
capacity, registering a present name returns true and changes nothing,
and after a fresh registration of `n` with port `p1`, `getPort n = p1`
and a repeated registration (still below capacity) returns true and
changes nothing. -/
theorem registerTopic_spec_C2 (reg : TopicRegistry) (name : String)
    (port msgSize : Nat) (role : Bool) (port2 msgSize2 : Nat)
    (role2 : Bool) :
    (MAX_TOPICS ≤ reg.topics.length →
      reg.registerTopic name port msgSize role = (false, reg)) ∧
    (reg.topics.length < MAX_TOPICS → reg.hasName name = true →
      reg.registerTopic name port msgSize role = (true, reg)) ∧
    (reg.topics.length < MAX_TOPICS → reg.hasName name = false →
      (reg.registerTopic name port msgSize role).1 = true ∧
      (reg.registerTopic name port msgSize role).2.getPort name = port ∧
      ((reg.registerTopic name port msgSize role).2.topics.length <
          MAX_TOPICS →
        (reg.registerTopic name port msgSize role).2.registerTopic name
            port2 msgSize2 role2 =
          (true, (reg.registerTopic name port msgSize role).2))) := by
  refine ⟨fun hcap => ?_, fun hcap hin => ?_, fun hcap hout => ?_⟩
  · simp [TopicRegistry.registerTopic, hcap]
  · simp [TopicRegistry.registerTopic, Nat.not_le.mpr hcap, hin]
  · have hreg : reg.registerTopic name port msgSize role =
        (true, ⟨reg.topics ++ [⟨name, port, msgSize, role⟩]⟩) := by
      simp [TopicRegistry.registerTopic, Nat.not_le.mpr hcap, hout]
    have hout' := hout
    rw [TopicRegistry.hasName] at hout'
    have hin2 : TopicRegistry.hasName
        ⟨reg.topics ++ [⟨name, port, msgSize, role⟩]⟩ name = true := by
      simp [TopicRegistry.hasName]
    refine ⟨by rw [hreg], ?_, fun hcap2 => ?_⟩
    · rw [hreg]
      have := findPort_append_not_found reg.topics
        ⟨name, port, msgSize, role⟩ name hout'
      simpa [TopicRegistry.getPort] using this
    · rw [hreg] at hcap2 ⊢
      simp only [] at hcap2 ⊢
      simp [TopicRegistry.registerTopic, Nat.not_le.mpr hcap2, hin2]
      simp at hcap2
      omega

/-- C2 witness: in a two-entry table, re-registering "a" with different
metadata returns true and leaves the table and its stored port
unchanged, and registering a fresh name stores its port. -/
theorem registerTopic_spec_C2_witness :
    TopicRegistry.registerTopic ⟨[⟨"a", 7001, 4, true⟩, ⟨"b", 7002, 8,
        false⟩]⟩ "a" 7050 16 false =
      (true, ⟨[⟨"a", 7001, 4, true⟩, ⟨"b", 7002, 8, false⟩]⟩) ∧
    (TopicRegistry.registerTopic ⟨[⟨"a", 7001, 4, true⟩, ⟨"b", 7002, 8,
        false⟩]⟩ "c" 7003 2 true).2.getPort "c" = 7003 := by
  refine ⟨(registerTopic_spec_C2 ⟨[⟨"a", 7001, 4, true⟩, ⟨"b", 7002, 8,
    false⟩]⟩ "a" 7050 16 false 0 0 false).2.1 (by decide) (by decide), ?_⟩
  exact ((registerTopic_spec_C2 ⟨[⟨"a", 7001, 4, true⟩, ⟨"b", 7002, 8,
    false⟩]⟩ "c" 7003 2 true 0 0 false).2.2 (by decide) (by decide)).2.1

/-- A valid-size non-empty datagram at the head of the queue is processed
by `spinOnce`. -/
theorem spinOnce_valid_head (s : Subscription) (now : Nat) (d : List Nat)
    (rest : List (List Nat)) (hinit : s.initialized = true)
    (hq : s.queue = d :: rest) (hne : d.length ≠ 0)
    (hv : s.msgSize ≤ d.length) :
    s.spinOnce now =
      ⟨true, s.hasCallback,
       { s with queue := rest,
                recvCount := (s.recvCount + 1) % U32,
                lastRecvTime := now }⟩ := by
  simp [Subscription.spinOnce, hinit, hq, hne, Nat.not_lt.mpr hv]

/-- The `spinAll` loop over a queue of valid-size datagrams: starting from
`count` firings with budget `depth`, it processes
`min (pending) (depth - count)` more messages and leaves the rest
queued. -/
theorem spinAllAux_all_valid (now : Nat) :
    ∀ (q : List (List Nat)) (s : Subscription) (count : Nat),
      s.queue = q → s.initialized = true → 0 < s.msgSize →
      (∀ d ∈ q, d.length = s.msgSize) → count < s.depth →
      (s.spinAllAux now count).1 = count + min q.length (s.depth - count) ∧
      (s.spinAllAux now count).2.queue.length =
        q.length - (s.depth - count) := by
  intro q
  induction q with
  | nil =>
    intro s count hq hi hm hv hc
    have hr : s.spinOnce now = ⟨false, false, s⟩ := by
      simp [Subscription.spinOnce, hi, hq]
    rw [Subscription.spinAllAux]
    simp [hr, hq]
  | cons d rest ih =>
    intro s count hq hi hm hv hc
    have hd : d.length = s.msgSize := hv d (by simp)
    have hr : s.spinOnce now =
        ⟨true, s.hasCallback,
         { s with queue := rest,
                  recvCount := (s.recvCount + 1) % U32,
                  lastRecvTime := now }⟩ :=
      spinOnce_valid_head s now d rest hi hq (by omega) (by omega)
    rw [Subscription.spinAllAux]
    simp only [hr]
    by_cases hstop : s.depth ≤ count + 1
    · simp [hstop]
      omega
    · have ih' := ih
        { s with queue := rest,
                 recvCount := (s.recvCount + 1) % U32,
                 lastRecvTime := now }
        (count + 1) rfl hi hm
        (fun e he => hv e (by simp [he]))
        (show count + 1 < s.depth by omega)
      simp at ih'
      simp [hstop]
      omega

/-- C6: on an initialized subscription with QoS depth d ≥ 1 and k pending
valid-size messages, one `spinAll` call processes exactly `min k d`
messages, returns that count, and leaves `k - d` messages pending; in
particular with `d + 2` pending it processes exactly `d` and leaves 2
pending for the next call. -/
theorem spinAll_spec_C6 (s : Subscription) (now : Nat)
    (hinit : s.initialized = true) (hm : 0 < s.msgSize) (hd : 1 ≤ s.depth)
    (hvalid : ∀ d ∈ s.queue, d.length = s.msgSize) :
    (s.spinAll now).1 = min s.queue.length s.depth ∧
    (s.spinAll now).2.queue.length = s.queue.length - s.depth ∧
    (s.queue.length = s.depth + 2 →
      (s.spinAll now).1 = s.depth ∧ (s.spinAll now).2.queue.length = 2) := by
  have h := spinAllAux_all_valid now s.queue s 0 rfl hinit hm hvalid
    (by omega)
  unfold Subscription.spinAll
  obtain ⟨h1, h2⟩ := h
  refine ⟨by omega, by omega, fun hk => ⟨by omega, by omega⟩⟩

/-- C6 witness: depth 2 with 4 = 2 + 2 pending one-byte messages:
`spinAll` processes 2 and leaves 2 pending. -/
theorem spinAll_spec_C6_witness :
    (Subscription.spinAll
      ⟨"t", 1, [[1], [2], [3], [4]], true, 2, 1, 0, 0, 0, true⟩ 3).1 = 2 ∧
    (Subscription.spinAll
      ⟨"t", 1, [[1], [2], [3], [4]], true, 2, 1, 0, 0, 0, true⟩
      3).2.queue.length = 2 := by
  obtain ⟨-, -, h3⟩ := spinAll_spec_C6
    ⟨"t", 1, [[1], [2], [3], [4]], true, 2, 1, 0, 0, 0, true⟩ 3 rfl
    (by decide) (by decide) (by decide)
  exact h3 rfl

/-- C2 counterexample: a registry holding its full 32 entries, among them
the name "0": re-registering "0" returns false (the capacity test runs
before the presence scan), although the claim says a present name always
re-registers with true and that false is only returned for absent
names. -/
theorem registerTopic_cex_C2 :
    TopicRegistry.hasName
      ⟨(List.range 32).map (fun i => ⟨toString i, 7000 + i, 4, true⟩)⟩
      "0" = true ∧
    TopicRegistry.registerTopic
      ⟨(List.range 32).map (fun i => ⟨toString i, 7000 + i, 4, true⟩)⟩
      "0" 9 9 true =
    (false,
     ⟨(List.range 32).map (fun i => ⟨toString i, 7000 + i, 4, true⟩)⟩) := by
  constructor
  · decide
  · rfl

/-- C7: every `Node` factory refuses — returning an absent handle and
leaving the node's collections and the topic registry unchanged — when
its collection is at capacity, and every factory keeps all three
collection counts within the fixed capacities of 8. -/
theorem node_capacity_spec_C7 (n : NodeState) (reg : TopicRegistry)
    (topic remoteIP mIP : String)
    (remotePort msgSize localPort depth periodUs : Nat)
    (hasCb bindOk joinOk : Bool) :
    (MAX_PUBLISHERS ≤ n.pubs.length →
      n.createPublisher reg topic remoteIP remotePort msgSize =
        (none, n, reg) ∧
      n.createBroadcastPublisher reg topic remotePort msgSize =
        (none, n, reg) ∧
      n.createMulticastPublisher reg topic remotePort msgSize mIP =
        (none, n, reg)) ∧
    (MAX_SUBSCRIPTIONS ≤ n.subs.length →
      n.createSubscription reg topic hasCb localPort msgSize depth bindOk =
        (none, n, reg) ∧
      n.createMulticastSubscription reg topic hasCb localPort msgSize depth
          mIP joinOk =
        (none, n, reg)) ∧
    (MAX_TIMERS ≤ n.timers.length →
      n.createTimer periodUs hasCb = (none, n)) ∧
    (n.withinCaps →
      (n.createPublisher reg topic remoteIP remotePort
        msgSize).2.1.withinCaps ∧
      (n.createBroadcastPublisher reg topic remotePort
        msgSize).2.1.withinCaps ∧
      (n.createMulticastPublisher reg topic remotePort msgSize
        mIP).2.1.withinCaps ∧
      (n.createSubscription reg topic hasCb localPort msgSize depth
        bindOk).2.1.withinCaps ∧
      (n.createMulticastSubscription reg topic hasCb localPort msgSize
        depth mIP joinOk).2.1.withinCaps ∧
      (n.createTimer periodUs hasCb).2.withinCaps) := by
  refine ⟨fun hcap => ⟨?_, ?_, ?_⟩, fun hcap => ⟨?_, ?_⟩, fun hcap => ?_,
    fun hw => ?_⟩
  · simp [NodeState.createPublisher, hcap]
  · simp [NodeState.createBroadcastPublisher, hcap]
  · simp [NodeState.createMulticastPublisher, hcap]
  · simp [NodeState.createSubscription, hcap]
  · simp [NodeState.createMulticastSubscription, hcap]
  · simp [NodeState.createTimer, hcap]
  · obtain ⟨h1, h2, h3⟩ := hw
    refine ⟨?_, ?_, ?_, ?_, ?_, ?_⟩
    · unfold NodeState.createPublisher
      by_cases hcap : MAX_PUBLISHERS ≤ n.pubs.length
      · simpa [hcap, NodeState.withinCaps] using ⟨h1, h2, h3⟩
      · simp only [hcap, if_false]
        simp only [NodeState.withinCaps, List.length_append,
          List.length_cons, List.length_nil] at h1 h2 h3 ⊢
        unfold MAX_PUBLISHERS at hcap ⊢
        refine ⟨by omega, h2, h3⟩
    · unfold NodeState.createBroadcastPublisher
      by_cases hcap : MAX_PUBLISHERS ≤ n.pubs.length
      · simpa [hcap, NodeState.withinCaps] using ⟨h1, h2, h3⟩
      · simp only [hcap, if_false]
        simp only [NodeState.withinCaps, List.length_append,
          List.length_cons, List.length_nil] at h1 h2 h3 ⊢
        unfold MAX_PUBLISHERS at hcap ⊢
        refine ⟨by omega, h2, h3⟩
    · unfold NodeState.createMulticastPublisher
      by_cases hcap : MAX_PUBLISHERS ≤ n.pubs.length
      · simpa [hcap, NodeState.withinCaps] using ⟨h1, h2, h3⟩
      · simp only [hcap, if_false]
        simp only [NodeState.withinCaps, List.length_append,
          List.length_cons, List.length_nil] at h1 h2 h3 ⊢
        unfold MAX_PUBLISHERS at hcap ⊢
        refine ⟨by omega, h2, h3⟩
    · unfold NodeState.createSubscription
      by_cases hcap : MAX_SUBSCRIPTIONS ≤ n.subs.length
      · simpa [hcap, NodeState.withinCaps] using ⟨h1, h2, h3⟩
      · simp only [hcap, if_false]
        simp only [NodeState.withinCaps, List.length_append,
          List.length_cons, List.length_nil] at h1 h2 h3 ⊢
        unfold MAX_SUBSCRIPTIONS at hcap ⊢
        refine ⟨h1, by omega, h3⟩
    · unfold NodeState.createMulticastSubscription
      by_cases hcap : MAX_SUBSCRIPTIONS ≤ n.subs.length
      · simpa [hcap, NodeState.withinCaps] using ⟨h1, h2, h3⟩
      · cases joinOk
        · simpa [hcap, NodeState.withinCaps] using ⟨h1, h2, h3⟩
        · simp only [hcap, if_false, if_true]
          simp only [NodeState.withinCaps, List.length_append,
            List.length_cons, List.length_nil] at h1 h2 h3 ⊢
          unfold MAX_SUBSCRIPTIONS at hcap ⊢
          refine ⟨h1, by omega, h3⟩
    · unfold NodeState.createTimer
      by_cases hcap : MAX_TIMERS ≤ n.timers.length
      · simpa [hcap, NodeState.withinCaps] using ⟨h1, h2, h3⟩
      · simp only [hcap, if_false]
        simp only [NodeState.withinCaps, List.length_append,
          List.length_cons, List.length_nil] at h1 h2 h3 ⊢
        unfold MAX_TIMERS at hcap ⊢
        refine ⟨h1, h2, by omega⟩

/-- C7 witness: a node with its 8 publisher slots used refuses another
publisher with no change to node or registry, and a node with its 8 timer
slots used refuses another timer. -/
theorem node_capacity_spec_C7_witness :
    NodeState.createPublisher
      ⟨List.replicate 8 ⟨"t", "ip", 1, 0, false, 0, 0, true⟩, [], []⟩ ⟨[]⟩
      "x" "ip2" 2 4 =
    (none, ⟨List.replicate 8 ⟨"t", "ip", 1, 0, false, 0, 0, true⟩, [], []⟩,
     ⟨[]⟩) ∧
    NodeState.createTimer ⟨[], [], List.replicate 8 (Timer.new 5 true)⟩
      7 true =
    (none, ⟨[], [], List.replicate 8 (Timer.new 5 true)⟩) := by
  refine ⟨((node_capacity_spec_C7
    ⟨List.replicate 8 ⟨"t", "ip", 1, 0, false, 0, 0, true⟩, [], []⟩ ⟨[]⟩
    "x" "ip2" "m" 2 4 0 0 7 true true true).1 (by decide)).1, ?_⟩
  exact (node_capacity_spec_C7 ⟨[], [], List.replicate 8 (Timer.new 5 true)⟩
    ⟨[]⟩ "x" "ip2" "m" 2 4 0 0 7 true true true).2.2.1 (by decide)
